import Mathlib

/-!
Verification of the fetch-aggregate-cache orchestrator of the
github-trending-repos repository.

The development shallowly embeds the two orchestrator variants of the
repository:

* `src/server.js` — the Express + socket.io variant: global mutable cache
  (`cachedRepos`, `lastUpdated`, `isCurrentlyFetching`), a calendar-day cache
  validity check, a single-flight guard, concurrent per-language fetching with
  `Promise.all`, first-occurrence deduplication by `repoUrl`, and broadcast of
  completion events over the socket channel.
* `src/app/api/trending/route.ts` — the Next.js route-handler variant:
  module-level cache (`cachedRepos`, `lastFetchedDate`, `isFetching`,
  `fetchPromise`), file-backed cache loading, join-the-in-flight-promise
  single-flight semantics, `results.flat()` aggregation (no deduplication) and
  a 500 error response when the merged set is empty.

JavaScript numbers that may be `NaN` are modelled as `Option Int` with `none`
standing for `NaN`; `null` is likewise `none` in `Option` fields.  Calendar
timestamps are modelled as a day index plus a time-of-day, and
`Date.toDateString` as the projection to the day index (two timestamps have
equal date strings iff they lie on the same calendar day).  The cheerio
selector results for one `.Box-row` element are modelled as a `BoxRow` record
holding the raw strings the extractor reads.
-/

namespace GithubTrending

/-- One discovered trending repository, as pushed by the extractor in both
`src/server.js` (lines 198–204) and `src/app/api/trending/route.ts`
(lines 92–98).  `stars` is the JS number produced by `parseInt` (possibly
`NaN`, modelled `none`); `starsToday` and `forks` are `number | null`. -/
structure Repo where
  language : String
  repoUrl : String
  stars : Option Int
  starsToday : Option Int
  forks : Option Int
deriving DecidableEq

/-- The raw per-item strings the extractor reads from one `.Box-row` element
via cheerio: the `h2 a` `href` attribute (absent modelled as `none`), the text
of the first stargazers anchor, the text of the fork anchor, and the text of
the `.f6.color-fg-muted.mt-2` node. -/
structure BoxRow where
  hrefAttr : Option String
  starsText : String
  forksText : String
  mutedText : String
deriving DecidableEq

/-- A failure of the network retrieval (network error, timeout or non-success
response — everything `axios.get` rejects with). -/
inductive FetchError where
  | networkError (msg : String)
deriving DecidableEq

/-- Replace the first comma of a character list, if any.  JavaScript
`String.prototype.replace` with the string pattern `','` replaces only the
first occurrence, which is what both extractors call on the stars and forks
texts. -/
def replaceFirstComma : List Char → List Char
  | [] => []
  | c :: cs => if c = ',' then cs else c :: replaceFirstComma cs

/-- JS `s.replace(',', '')` on a string. -/
def jsReplaceComma (s : String) : String :=
  ⟨replaceFirstComma s.data⟩

/-- JS `String.prototype.trim`: strip whitespace from both ends (structural
definition on the character list). -/
def jsTrim (s : String) : String :=
  ⟨((s.data.dropWhile Char.isWhitespace).reverse.dropWhile Char.isWhitespace).reverse⟩

/-- Value of a digit character list read in base 10. -/
def digitsVal (ds : List Char) : Nat :=
  ds.foldl (fun a c => a * 10 + (c.toNat - 48)) 0

/-- The longest digit prefix of a character list, `none` when empty. -/
def digitsPrefixVal (cs : List Char) : Option Nat :=
  let ds := cs.takeWhile Char.isDigit
  if ds = [] then none else some (digitsVal ds)

/-- JS `parseInt(s, 10)`: skip leading whitespace, read an optional sign and
the longest digit prefix; `NaN` (modelled `none`) when no digit is found. -/
def jsParseInt (s : String) : Option Int :=
  match (jsTrim s).data with
  | '-' :: rest => (digitsPrefixVal rest).map (fun n => -(n : Int))
  | '+' :: rest => (digitsPrefixVal rest).map (fun n => (n : Int))
  | cs => (digitsPrefixVal cs).map (fun n => (n : Int))

/-- JS `s || d` on strings: the empty string is falsy. -/
def jsOrDefaultStr (s d : String) : String :=
  if s = "" then d else s

/-- JS `x || null` on a number: both `NaN` (`none`) and `0` are falsy and
become `null`. -/
def jsNumOrNull (x : Option Int) : Option Int :=
  match x with
  | some n => if n = 0 then none else some n
  | none => none

/-- One step of the regex search for `/(\d+) stars today/`: at each start
position try the maximal digit run followed by the literal `" stars today"`;
on failure restart one character later (faithful to the backtracking regex
engine, since a shorter digit run would be followed by a digit, never by a
space). -/
def findStarsToday : List Char → Option Nat
  | [] => none
  | c :: cs =>
    let ds := (c :: cs).takeWhile Char.isDigit
    if ds ≠ [] ∧ List.isPrefixOf " stars today".data ((c :: cs).drop ds.length) then
      some (digitsVal ds)
    else
      findStarsToday cs

/-- The per-`.Box-row` extraction body shared verbatim by
`src/server.js` lines 166–205 and `src/app/api/trending/route.ts`
lines 60–99: build `repoUrl` from the `href` attribute, `parseInt` the stars
text (first comma removed), `parseInt` the forks text with `|| '0'` fallback
and `|| null` on the result, and regex-match the muted text for the
same-day star count. -/
def extractRow (language : String) (row : BoxRow) : Repo :=
  let repoPath :=
    match row.hrefAttr with
    | some h => jsTrim h
    | none => ""
  { language := language
    repoUrl := "https://github.com" ++ repoPath
    stars := jsParseInt (jsReplaceComma (jsTrim row.starsText))
    starsToday := (findStarsToday row.mutedText.data).map Int.ofNat
    forks := jsNumOrNull (jsParseInt (jsOrDefaultStr (jsReplaceComma (jsTrim row.forksText)) "0")) }

/-- The trending URL chosen by `src/server.js` lines 150–153 (the empty
category denotes the overall catch-all page). -/
def trendingUrl (language : String) : String :=
  if language = "" then "https://github.com/trending/"
  else "https://github.com/trending/" ++ language ++ "?since=daily"

/-- `fetchTrendingRepos` of both variants: on a successful response extract
one record per `.Box-row`; on any failure of the retrieval, catch, log and
return the empty list (`src/server.js` lines 156–211,
`src/app/api/trending/route.ts` lines 50–105).  The network outcome is passed
in explicitly. -/
def fetchTrendingRepos (language : String) (response : Except FetchError (List BoxRow)) :
    List Repo :=
  match response with
  | Except.error _ => []
  | Except.ok rows => rows.map (extractRow language)

/-- The fan-out of the aggregator: one fetch per category, results collected
in category-list order (`Promise.all` preserves input order), as in
`src/server.js` lines 97–111 and `src/app/api/trending/route.ts` line 141. -/
def fetchAll (langs : List String) (net : String → Except FetchError (List BoxRow)) :
    List (List Repo) :=
  langs.map (fun l => fetchTrendingRepos l (net l))

/-- A point in time: calendar day index plus time within the day.  Two
timestamps have equal `Date.toDateString` values exactly when their `day`
fields agree. -/
structure Timestamp where
  day : Int
  msOfDay : Nat
deriving DecidableEq

/-- JS `new Date(t).toDateString()`, abstracted to the calendar-day index
(`route.ts`'s `getTodayDateString`, the ISO date prefix, is the same
abstraction). -/
def toDateString (t : Timestamp) : Int :=
  t.day

/-- The module-level mutable state of `src/server.js` (lines 20–22):
`cachedRepos`, `lastUpdated` and the single-flight flag
`isCurrentlyFetching`. -/
structure ServerState where
  cachedRepos : List Repo
  lastUpdated : Option Timestamp
  isCurrentlyFetching : Bool
deriving DecidableEq

/-- The three immediate JSON responses of the `/api/trending` Express handler
(`src/server.js` lines 63–90). -/
inductive ApiResponse where
  | usingCached (lastUpdated : Option Timestamp)
  | inProgress
  | started
deriving DecidableEq

/-- `src/server.js` lines 56–59: cached data is valid when it is non-empty,
`lastUpdated` is set, its calendar date is today, and no force refresh was
requested. -/
def cacheIsValid (s : ServerState) (today : Int) (forceRefresh : Bool) : Bool :=
  decide (s.cachedRepos.length > 0) &&
    (match s.lastUpdated with
     | some t => toDateString t == today
     | none => false) &&
    !forceRefresh

/-- The request phase of the `/api/trending` handler
(`src/server.js` lines 50–90): answer from the valid cache, else report an
in-flight fetch, else start a new fetch — setting the single-flight flag and
clearing the previous cache before responding `started`. -/
def serverGet (forceRefresh : Bool) (now : Timestamp) (s : ServerState) :
    ApiResponse × ServerState :=
  let today := toDateString now
  if cacheIsValid s today forceRefresh then
    (ApiResponse.usingCached s.lastUpdated, s)
  else if s.isCurrentlyFetching then
    (ApiResponse.inProgress, s)
  else
    (ApiResponse.started, { s with isCurrentlyFetching := true, cachedRepos := [] })

/-- Outcome of the fetch phase: either all `Promise.all` results (one list per
language, input order), or an exception escaping the `try` block. -/
inductive RunOutcome where
  | completed (allReposArray : List (List Repo))
  | threw (msg : String)
deriving DecidableEq

/-- The socket events emitted at the end of the fetch phase
(`src/server.js` lines 125–130). -/
inductive SocketEvent where
  | reposUpdate (repos : List Repo) (lastUpdated : Timestamp)
  | completedEvent (lastUpdated : Timestamp)
  | errorEvent (msg : String)
deriving DecidableEq

/-- `src/server.js` lines 115–117: keep an element exactly when its index is
the first index carrying its `repoUrl`
(`allRepos.filter((repo, index, self) => index === self.findIndex((r) => r.repoUrl === repo.repoUrl))`). -/
def uniqueRepos (allRepos : List Repo) : List Repo :=
  (allRepos.enum.filter
      (fun p => allRepos.findIdx (fun r => r.repoUrl == p.2.repoUrl) == p.1)).map Prod.snd

/-- The completion phase of the fetch (`src/server.js` lines 111–133): on
normal completion flatten, deduplicate, atomically install the new cache and
broadcast `reposUpdate` and `completed`; on a thrown error broadcast the error
event; in both cases the `finally` block clears the single-flight flag. -/
def serverFinishFetch (outcome : RunOutcome) (now : Timestamp) (s : ServerState) :
    ServerState × List SocketEvent :=
  match outcome with
  | RunOutcome.completed allReposArray =>
      let u := uniqueRepos allReposArray.flatten
      ({ cachedRepos := u, lastUpdated := some now, isCurrentlyFetching := false },
       [SocketEvent.reposUpdate u now, SocketEvent.completedEvent now])
  | RunOutcome.threw m =>
      ({ s with isCurrentlyFetching := false }, [SocketEvent.errorEvent m])

/-- `io.emit` broadcast semantics: every connected observer receives the same
event list. -/
def broadcast (events : List SocketEvent) (observers : List Nat) :
    List (Nat × List SocketEvent) :=
  observers.map (fun o => (o, events))

/-- The module-level mutable state of `src/app/api/trending/route.ts`
(lines 24–27); the existence of `fetchPromise` coincides with `isFetching`
(they are set and cleared together). -/
structure RouteState where
  cachedRepos : List Repo
  lastFetchedDate : Option Int
  isFetching : Bool
deriving DecidableEq

/-- The branch the route handler takes for one request
(`route.ts` lines 110–140). -/
inductive RouteDecision where
  | serveCached (repos : List Repo)
  | joinExisting
  | startRun
deriving DecidableEq

/-- Whether `saveCacheToFile` succeeds during the run chain. -/
inductive SaveOutcome where
  | saveOk
  | saveFailed
deriving DecidableEq

/-- An HTTP response of the route handler: a JSON repo list, or the
500 `Failed to fetch trending repositories.` error. -/
inductive RouteResponse where
  | jsonRepos (repos : List Repo)
  | errorFailed
deriving DecidableEq

/-- `route.ts` lines 116–122: when no force fetch is requested and no fetch
date is in memory, load the file cache (when readable) into memory. -/
def routeLoadCache (forceFetch : Bool) (fileCache : Option (List Repo × Int))
    (s : RouteState) : RouteState :=
  if !forceFetch && s.lastFetchedDate == none then
    match fileCache with
    | some fc => { s with cachedRepos := fc.1, lastFetchedDate := some fc.2 }
    | none => s
  else s

/-- `route.ts` line 125: serve from memory when no force fetch is requested,
the stored date is today and the stored list is non-empty. -/
def routeCacheHit (forceFetch : Bool) (today : Int) (s : RouteState) : Bool :=
  !forceFetch && s.lastFetchedDate == some today && decide (s.cachedRepos.length > 0)

/-- The decision phase of the route handler (`route.ts` lines 110–140): load
the file cache, serve a valid memory cache, else join an in-flight fetch,
else start a new fetch and take the lock. -/
def routeGet (forceFetch : Bool) (today : Int) (fileCache : Option (List Repo × Int))
    (s : RouteState) : RouteDecision × RouteState :=
  let s0 := routeLoadCache forceFetch fileCache s
  if routeCacheHit forceFetch today s0 then
    (RouteDecision.serveCached s0.cachedRepos, s0)
  else if s0.isFetching then
    (RouteDecision.joinExisting, s0)
  else
    (RouteDecision.startRun, { s0 with isFetching := true })

/-- The promise chain of the run (`route.ts` lines 141–159): flatten the
per-language results into `cachedRepos`, record today's date, attempt the file
save (a save failure is caught and turns the promise value into `[]` while the
memory cache keeps the merged list), and finally release the lock.  Returns
the promise's resolution value together with the final state. -/
def routeRunChain (results : List (List Repo)) (save : SaveOutcome) (today : Int)
    (s : RouteState) : List Repo × RouteState :=
  let merged := results.flatten
  let s1 : RouteState :=
    { s with cachedRepos := merged, lastFetchedDate := some today }
  match save with
  | SaveOutcome.saveOk => (merged, { s1 with isFetching := false })
  | SaveOutcome.saveFailed => ([], { s1 with isFetching := false })

/-- The initiating request's response (`route.ts` lines 162–169): a 500 error
when the awaited promise resolved to an empty list, else the JSON list. -/
def routeInitiatorResponse (finalRepos : List Repo) : RouteResponse :=
  if finalRepos.length = 0 then RouteResponse.errorFailed
  else RouteResponse.jsonRepos finalRepos

/-- The joining request's response (`route.ts` lines 131–135): after awaiting
the in-flight promise it serves the then-current `cachedRepos`. -/
def routeJoinerResponse (sFinal : RouteState) : RouteResponse :=
  RouteResponse.jsonRepos sFinal.cachedRepos

/-! ## Concrete sample data used by witnesses and counterexamples -/

/-- A sample record under the `go` category. -/
def rA : Repo :=
  { language := "go", repoUrl := "https://github.com/a/a", stars := some 10,
    starsToday := some 3, forks := some 2 }

/-- A second sample record, distinct `repoUrl`. -/
def rB : Repo :=
  { language := "go", repoUrl := "https://github.com/b/b", stars := some 5,
    starsToday := none, forks := none }

/-- The `rust`-category copy of `rA`'s repository (same `repoUrl`). -/
def rA' : Repo :=
  { language := "rust", repoUrl := "https://github.com/a/a", stars := some 10,
    starsToday := some 3, forks := some 2 }

/-- A row whose stargazers text is empty, hence unparseable (`parseInt`
yields `NaN`). -/
def rowBadStars : BoxRow :=
  { hrefAttr := some "/a/b", starsText := "", forksText := "2", mutedText := "" }

/-- A row whose fork count text parses to `0`. -/
def rowZeroForks : BoxRow :=
  { hrefAttr := some "/c/d", starsText := "7", forksText := "0",
    mutedText := "12 stars today" }

/-- A well-formed row used for successful fetches. -/
def rowOk : BoxRow :=
  { hrefAttr := some "/w/w", starsText := "1,234", forksText := "56",
    mutedText := "78 stars today" }

/-- A network function where every category succeeds with one row. -/
def netAllOk : String → Except FetchError (List BoxRow) :=
  fun _ => Except.ok [rowOk]

/-- A network function where exactly the `rust` category fails. -/
def netRustDown : String → Except FetchError (List BoxRow) :=
  fun x =>
    if x = "rust" then Except.error (FetchError.networkError "timeout")
    else Except.ok [rowOk]

/-- A timestamp one minute before a day boundary. -/
def tYesterdayLate : Timestamp := { day := 4, msOfDay := 86340000 }

/-- A timestamp one minute after the same day boundary. -/
def tToday : Timestamp := { day := 5, msOfDay := 60000 }

/-- A server state holding yesterday's cached set, idle. -/
def sStale : ServerState :=
  { cachedRepos := [rA], lastUpdated := some tYesterdayLate, isCurrentlyFetching := false }

/-- An empty idle route state. -/
def rsIdle : RouteState :=
  { cachedRepos := [], lastFetchedDate := none, isFetching := false }

/-! ## Helper lemmas -/

/-- A URL built by prefixing `https://github.com` is never the empty
string. -/
lemma github_url_ne_empty (s : String) : ("https://github.com" ++ s) ≠ "" := by
  intro h
  have h2 := congrArg String.length h
  rw [String.length_append] at h2
  have h3 : ("https://github.com" : String).length = 18 := rfl
  have h4 : ("" : String).length = 0 := rfl
  omega

/-- The `|| null` coercion never outputs the number `0`. -/
lemma jsNumOrNull_ne_some_zero (x : Option Int) : jsNumOrNull x ≠ some 0 := by
  match x with
  | none => simp [jsNumOrNull]
  | some n =>
    by_cases hn : n = 0 <;> simp [jsNumOrNull, hn]

/-! ## Claim C7 -/

/-- C7: for every category and every outcome of its network retrieval,
`fetchTrendingRepos` returns a plain list to its caller (it is a total
function — no exception escapes), on any failure it returns the empty list,
and a failure of one category leaves every other category's entry of the
aggregated fan-out unchanged: the run is never aborted by one outage. -/
theorem fetchCategory_failure_isolated (l : String) (e : FetchError)
    (langs : List String) (net net2 : String → Except FetchError (List BoxRow))
    (hagree : ∀ x, x ≠ l → net2 x = net x) (hfail : net2 l = Except.error e)
    (i : Nat) (x : String) (hx : langs[i]? = some x) (hne : x ≠ l) :
    fetchTrendingRepos l (net2 l) = [] ∧
    (fetchAll langs net2)[i]? = (fetchAll langs net)[i]? := by
  constructor
  · rw [hfail]
    rfl
  · unfold fetchAll
    rw [List.getElem?_map, List.getElem?_map, hx]
    simp [hagree x hne]

/-- Witness for C7: with `["go", "rust"]` and the `rust` retrieval failing,
the `rust` fetch yields `[]` while the `go` entry of the aggregate equals the
all-success aggregate's entry. -/
theorem fetchCategory_failure_isolated_witness :
    fetchTrendingRepos "rust" (netRustDown "rust") = [] ∧
    (fetchAll ["go", "rust"] netRustDown)[0]? = (fetchAll ["go", "rust"] netAllOk)[0]? :=
  fetchCategory_failure_isolated "rust" (FetchError.networkError "timeout")
    ["go", "rust"] netAllOk netRustDown
    (fun x hx => by simp [netRustDown, netAllOk, hx])
    (by simp [netRustDown])
    0 "go" rfl (by decide)

/-! ## Claim C9 (counterexample and amended form) -/

/-- C9 counterexample: for the row whose stargazers text is empty the stars
text is unparseable (`parseInt` gives `NaN`), and the extractor retains the
record but with `stars = NaN` (modelled `none`) — no numeric fallback value is
substituted for the primary metric, refuting the claim's fallback clause at
this input. -/
theorem unparseable_stars_no_numeric_fallback :
    jsParseInt (jsReplaceComma (jsTrim rowBadStars.starsText)) = none ∧
    (fetchTrendingRepos "go" (Except.ok [rowBadStars])).length = 1 ∧
    (extractRow "go" rowBadStars).stars = none := by
  refine ⟨rfl, rfl, rfl⟩

/-- C9 (amended): extraction never drops a row — the output has one record
per row — every extracted record's `sourceUrl` is non-empty, and a row whose
stars text is unparseable is still retained, with `stars = NaN` (`none`)
rather than a numeric fallback value. -/
theorem extraction_retains_unparseable (lang : String) (rows : List BoxRow) :
    (fetchTrendingRepos lang (Except.ok rows)).length = rows.length ∧
    (∀ r ∈ fetchTrendingRepos lang (Except.ok rows), r.repoUrl ≠ "") ∧
    (∀ row ∈ rows, jsParseInt (jsReplaceComma (jsTrim row.starsText)) = none →
      extractRow lang row ∈ fetchTrendingRepos lang (Except.ok rows) ∧
        (extractRow lang row).stars = none) := by
  refine ⟨by simp [fetchTrendingRepos], ?_, ?_⟩
  · intro r hr
    simp only [fetchTrendingRepos] at hr
    rcases List.mem_map.1 hr with ⟨row, _, rfl⟩
    simp only [extractRow]
    exact github_url_ne_empty _
  · intro row hrow hnone
    refine ⟨?_, ?_⟩
    · simp only [fetchTrendingRepos]
      exact List.mem_map_of_mem _ hrow
    · simp only [extractRow]
      exact hnone

/-- Witness for C9 (amended): the bad-stars row is retained in a concrete
two-row batch with `stars = none`. -/
theorem extraction_retains_unparseable_witness :
    extractRow "go" rowBadStars ∈
        fetchTrendingRepos "go" (Except.ok [rowBadStars, rowZeroForks]) ∧
      (extractRow "go" rowBadStars).stars = none :=
  (extraction_retains_unparseable "go" [rowBadStars, rowZeroForks]).2.2
    rowBadStars (by decide) rfl

/-! ## Claim C10 -/

/-- C10: no record of any extractor output carries `forks = 0`: the
`|| null` coercion sends a parsed `0` (like `NaN`) to `null`, so a forks text
parsing to `0` yields an absent fork count. -/
theorem forks_never_zero (lang : String) (resp : Except FetchError (List BoxRow))
    (r : Repo) (h : r ∈ fetchTrendingRepos lang resp) :
    r.forks ≠ some 0 ∧
    ∀ row : BoxRow,
      jsParseInt (jsOrDefaultStr (jsReplaceComma (jsTrim row.forksText)) "0") = some 0 →
        (extractRow lang row).forks = none := by
  constructor
  · match resp with
    | Except.error e => simp [fetchTrendingRepos] at h
    | Except.ok rows =>
      simp only [fetchTrendingRepos] at h
      rcases List.mem_map.1 h with ⟨row, _, rfl⟩
      simp only [extractRow]
      exact jsNumOrNull_ne_some_zero _
  · intro row hzero
    simp only [extractRow, hzero, jsNumOrNull]
    rfl

/-- Witness for C10: the zero-forks row's extracted record has `forks ≠ some 0`,
indeed `forks = none`. -/
theorem forks_never_zero_witness :
    (extractRow "go" rowZeroForks).forks ≠ some 0 ∧
      (extractRow "go" rowZeroForks).forks = none :=
  ⟨(forks_never_zero "go" (Except.ok [rowZeroForks]) (extractRow "go" rowZeroForks)
      (by simp [fetchTrendingRepos])).1,
   (forks_never_zero "go" (Except.ok [rowZeroForks]) (extractRow "go" rowZeroForks)
      (by simp [fetchTrendingRepos])).2 rowZeroForks rfl⟩

/-! ## Claim C3 -/

/-- C3: for a non-forced request, the cache validity check of `server.js`
returns true iff the store holds a non-empty cached record list stamped with a
timestamp lying on the calendar date of `now`; in particular a yesterday-built
cache is invalid today however recent, and an empty store is invalid for every
`now`. -/
theorem cacheIsValid_iff_same_day (s : ServerState) (now : Timestamp) :
    cacheIsValid s (toDateString now) false = true ↔
      s.cachedRepos ≠ [] ∧
        ∃ t, s.lastUpdated = some t ∧ toDateString t = toDateString now := by
  unfold cacheIsValid
  cases hl : s.lastUpdated with
  | none => simp
  | some t => simp [List.length_pos]

/-- Witness for C3: a cache built one minute before midnight is invalid one
minute after midnight. -/
theorem cacheIsValid_iff_same_day_witness :
    cacheIsValid sStale (toDateString tToday) false = false := by
  refine Bool.eq_false_iff.2 (fun hx => ?_)
  rcases (cacheIsValid_iff_same_day sStale tToday).1 hx with ⟨-, t, ht, hday⟩
  have hEq : tYesterdayLate = t := by
    simpa [sStale] using ht
  rw [← hEq] at hday
  exact absurd hday (by decide)

/-! ## Claim C6 -/

/-- C6: a `forceRefresh`/`forceFetch` request bypasses the cache check
entirely: from an idle coordinator — whatever the cache holds, a valid
same-day set included — a new run is started in both variants, taking the
single-flight lock. -/
theorem forceRefresh_bypasses_cache (s : ServerState) (now : Timestamp)
    (rs : RouteState) (today : Int) (fc : Option (List Repo × Int))
    (h1 : s.isCurrentlyFetching = false) (h2 : rs.isFetching = false) :
    (serverGet true now s).1 = ApiResponse.started ∧
    (serverGet true now s).2.isCurrentlyFetching = true ∧
    (routeGet true today fc rs).1 = RouteDecision.startRun ∧
    (routeGet true today fc rs).2.isFetching = true := by
  have hv : cacheIsValid s (toDateString now) true = false := by
    simp [cacheIsValid]
  refine ⟨?_, ?_, ?_, ?_⟩ <;>
    simp [serverGet, routeGet, routeLoadCache, routeCacheHit, hv, h1, h2]

/-- Witness for C6: with a valid same-day cached set in both stores, a forced
request still starts a run. -/
theorem forceRefresh_bypasses_cache_witness :
    (serverGet true tToday
        { cachedRepos := [rA], lastUpdated := some { day := 5, msOfDay := 0 },
          isCurrentlyFetching := false }).1 = ApiResponse.started ∧
    (serverGet true tToday
        { cachedRepos := [rA], lastUpdated := some { day := 5, msOfDay := 0 },
          isCurrentlyFetching := false }).2.isCurrentlyFetching = true ∧
    (routeGet true 5 none
        { cachedRepos := [rA], lastFetchedDate := some 5, isFetching := false }).1 =
      RouteDecision.startRun ∧
    (routeGet true 5 none
        { cachedRepos := [rA], lastFetchedDate := some 5, isFetching := false }).2.isFetching =
      true :=
  forceRefresh_bypasses_cache _ tToday _ 5 none rfl rfl

/-! ## Claim C8 -/

/-- C8: the in-flight lock is always released when a run ends: the server's
`finally` clears `isCurrentlyFetching` on normal completion and on a thrown
error alike, the throwing case broadcasts an error event, and the route
handler's `finally` releases `isFetching` for every save outcome. -/
theorem inflight_always_released (outcome : RunOutcome) (now : Timestamp)
    (s : ServerState) (results : List (List Repo)) (save : SaveOutcome)
    (today : Int) (rs : RouteState) :
    (serverFinishFetch outcome now s).1.isCurrentlyFetching = false ∧
    (∀ m, outcome = RunOutcome.threw m →
      SocketEvent.errorEvent m ∈ (serverFinishFetch outcome now s).2) ∧
    (routeRunChain results save today rs).2.isFetching = false := by
  refine ⟨?_, ?_, ?_⟩
  · cases outcome <;> rfl
  · intro m hm
    subst hm
    simp [serverFinishFetch]
  · cases save <;> rfl

/-- Witness for C8: a concrete throwing run releases the server lock and
broadcasts the error; a concrete failing save still releases the route
lock. -/
theorem inflight_always_released_witness :
    (serverFinishFetch (RunOutcome.threw "boom") tToday sStale).1.isCurrentlyFetching = false ∧
    SocketEvent.errorEvent "boom" ∈
      (serverFinishFetch (RunOutcome.threw "boom") tToday sStale).2 ∧
    (routeRunChain [[rA]] SaveOutcome.saveFailed 5 rsIdle).2.isFetching = false :=
  ⟨(inflight_always_released (RunOutcome.threw "boom") tToday sStale [[rA]]
      SaveOutcome.saveFailed 5 rsIdle).1,
   (inflight_always_released (RunOutcome.threw "boom") tToday sStale [[rA]]
      SaveOutcome.saveFailed 5 rsIdle).2.1 "boom" rfl,
   (inflight_always_released (RunOutcome.threw "boom") tToday sStale [[rA]]
      SaveOutcome.saveFailed 5 rsIdle).2.2⟩

/-! ## Claim C5 (counterexample and amended form) -/

/-- C5 counterexample: starting a refresh from the stale state holding `rA`
immediately clears the stored set — right after the `started` response the
store carries `[]`, not the previously cached `[rA]`, so the old set is not
readable while the new one is being built, refuting the atomic-replacement
claim at this concrete state. -/
theorem refresh_clears_cache_midrun :
    (serverGet false tToday sStale).1 = ApiResponse.started ∧
    sStale.cachedRepos = [rA] ∧
    (serverGet false tToday sStale).2.cachedRepos = [] := by
  refine ⟨by decide, rfl, by decide⟩

/-- C5 (amended): replacement does not preserve the old set: whenever a
request starts a run, the store is cleared to `[]` (keeping the previous
`lastUpdated`) until completion; the completion step then installs the new
record set and the new timestamp together in a single state update, so no
state pairs one completed run's records with another's timestamp. -/
theorem cache_cleared_then_replaced_atomically (force : Bool) (now : Timestamp)
    (s : ServerState) (h : (serverGet force now s).1 = ApiResponse.started)
    (results : List (List Repo)) (done : Timestamp) (s2 : ServerState) :
    (serverGet force now s).2.cachedRepos = [] ∧
    (serverGet force now s).2.lastUpdated = s.lastUpdated ∧
    (serverFinishFetch (RunOutcome.completed results) done s2).1.cachedRepos =
      uniqueRepos results.flatten ∧
    (serverFinishFetch (RunOutcome.completed results) done s2).1.lastUpdated = some done := by
  unfold serverGet at h ⊢
  by_cases h1 : cacheIsValid s (toDateString now) force = true
  · simp [h1] at h
  · by_cases h2 : s.isCurrentlyFetching = true
    · simp [h1, h2] at h
    · simp only [Bool.not_eq_true] at h1 h2
      simp [h1, h2, serverFinishFetch]

/-- Witness for C5 (amended): instantiated at the stale state and a one-result
run. -/
theorem cache_cleared_then_replaced_atomically_witness :
    (serverGet false tToday sStale).2.cachedRepos = [] ∧
    (serverGet false tToday sStale).2.lastUpdated = sStale.lastUpdated ∧
    (serverFinishFetch (RunOutcome.completed [[rA']]) tToday sStale).1.cachedRepos =
      uniqueRepos [[rA']].flatten ∧
    (serverFinishFetch (RunOutcome.completed [[rA']]) tToday sStale).1.lastUpdated =
      some tToday :=
  cache_cleared_then_replaced_atomically false tToday sStale (by decide) [[rA']] tToday sStale

/-! ## Claim C4 (counterexample and amended form) -/

/-- C4 counterexample: a route-handler run in which both categories complete
with zero records resolves to the empty merged list, and the initiating
request is answered with the 500 error response rather than a success —
refuting the claim at this concrete input. -/
theorem empty_run_reported_as_error :
    (routeRunChain [[], []] SaveOutcome.saveOk 5 rsIdle).1 = [] ∧
    routeInitiatorResponse (routeRunChain [[], []] SaveOutcome.saveOk 5 rsIdle).1 =
      RouteResponse.errorFailed :=
  ⟨rfl, rfl⟩

/-- C4 (amended): in `server.js` a run whose categories all complete with zero
records is still a successful run — the cache is replaced by the empty set
stamped with the run's timestamp, a completion event is broadcast, and no
error event is emitted — whereas the `route.ts` initiator of an empty run
receives the 500 error response. -/
theorem empty_run_success_server (results : List (List Repo)) (now : Timestamp)
    (s : ServerState) (h : results.flatten = []) (save : SaveOutcome) (today : Int)
    (rs : RouteState) :
    (serverFinishFetch (RunOutcome.completed results) now s).1.cachedRepos = [] ∧
    (serverFinishFetch (RunOutcome.completed results) now s).1.lastUpdated = some now ∧
    SocketEvent.completedEvent now ∈
      (serverFinishFetch (RunOutcome.completed results) now s).2 ∧
    (∀ m, SocketEvent.errorEvent m ∉
      (serverFinishFetch (RunOutcome.completed results) now s).2) ∧
    routeInitiatorResponse (routeRunChain results save today rs).1 =
      RouteResponse.errorFailed := by
  refine ⟨?_, rfl, ?_, ?_, ?_⟩
  · simp [serverFinishFetch, h, uniqueRepos]
  · simp [serverFinishFetch]
  · intro m
    simp [serverFinishFetch]
  · cases save with
    | saveOk => simp [routeRunChain, routeInitiatorResponse, h]
    | saveFailed => simp [routeRunChain, routeInitiatorResponse]

/-- Witness for C4 (amended): instantiated at a concrete two-empty-category
run. -/
theorem empty_run_success_server_witness :
    (serverFinishFetch (RunOutcome.completed [[], []]) tToday sStale).1.cachedRepos = [] ∧
    (serverFinishFetch (RunOutcome.completed [[], []]) tToday sStale).1.lastUpdated =
      some tToday ∧
    SocketEvent.completedEvent tToday ∈
      (serverFinishFetch (RunOutcome.completed [[], []]) tToday sStale).2 ∧
    (∀ m, SocketEvent.errorEvent m ∉
      (serverFinishFetch (RunOutcome.completed [[], []]) tToday sStale).2) ∧
    routeInitiatorResponse (routeRunChain [[], []] SaveOutcome.saveOk 5 rsIdle).1 =
      RouteResponse.errorFailed :=
  empty_run_success_server [[], []] tToday sStale rfl SaveOutcome.saveOk 5 rsIdle

/-! ## Claim C2 (counterexample and amended form) -/

/-- Loading an absent file cache changes nothing. -/
lemma routeLoadCache_none (f : Bool) (s : RouteState) :
    routeLoadCache f none s = s := by
  unfold routeLoadCache
  split <;> rfl

/-- The file-cache load never touches the in-flight flag. -/
lemma routeLoadCache_isFetching (f : Bool) (fc : Option (List Repo × Int))
    (s : RouteState) : (routeLoadCache f fc s).isFetching = s.isFetching := by
  unfold routeLoadCache
  cases fc <;> split <;> rfl

/-- After one request has loaded the file cache and taken the lock, a second
request's file-cache load is the identity (either the date is now set, or
there was nothing to load). -/
lemma routeLoadCache_after_start (fc : Option (List Repo × Int)) (s : RouteState) :
    routeLoadCache false fc { routeLoadCache false fc s with isFetching := true } =
      { routeLoadCache false fc s with isFetching := true } := by
  cases fc with
  | none => rw [routeLoadCache_none, routeLoadCache_none]
  | some fc0 =>
    cases hd : s.lastFetchedDate with
    | none => unfold routeLoadCache; simp [hd]
    | some d0 => unfold routeLoadCache; simp [hd]

/-- C2 counterexample: with no valid cache, two concurrent route requests do
share a single run (the second joins), but when every category completes
empty the two requesters do not observe the same final result: the initiator
receives the 500 error response while the joiner receives the empty JSON
list. -/
theorem single_flight_divergent_observation :
    (routeGet false 5 none rsIdle).1 = RouteDecision.startRun ∧
    (routeGet false 5 none (routeGet false 5 none rsIdle).2).1 =
      RouteDecision.joinExisting ∧
    routeInitiatorResponse
        (routeRunChain [[]] SaveOutcome.saveOk 5
          (routeGet false 5 none (routeGet false 5 none rsIdle).2).2).1 =
      RouteResponse.errorFailed ∧
    routeJoinerResponse
        (routeRunChain [[]] SaveOutcome.saveOk 5
          (routeGet false 5 none (routeGet false 5 none rsIdle).2).2).2 =
      RouteResponse.jsonRepos [] ∧
    RouteResponse.errorFailed ≠ RouteResponse.jsonRepos ([] : List Repo) := by
  refine ⟨by decide, by decide, by decide, by decide, by decide⟩

/-- C2 (amended): two refresh requests issued concurrently while no cached
result is valid start exactly one run: the first takes the lock and starts it,
the second joins the in-flight operation, and — provided the run's merged
result is non-empty and the cache save succeeds — both requesters observe the
same final merged result.  (When the merged set is empty the initiator
receives the 500 error while the joiner receives the empty list.) -/
theorem single_flight_join (s : RouteState) (today : Int)
    (fc : Option (List Repo × Int)) (results : List (List Repo))
    (h0 : s.isFetching = false)
    (hmiss : routeCacheHit false today (routeLoadCache false fc s) = false)
    (hne : results.flatten ≠ []) :
    (routeGet false today fc s).1 = RouteDecision.startRun ∧
    (routeGet false today fc (routeGet false today fc s).2).1 =
      RouteDecision.joinExisting ∧
    ([(routeGet false today fc s).1,
        (routeGet false today fc (routeGet false today fc s).2).1].countP
      (fun d => d == RouteDecision.startRun)) = 1 ∧
    routeInitiatorResponse
        (routeRunChain results SaveOutcome.saveOk today
          (routeGet false today fc (routeGet false today fc s).2).2).1 =
      RouteResponse.jsonRepos results.flatten ∧
    routeJoinerResponse
        (routeRunChain results SaveOutcome.saveOk today
          (routeGet false today fc (routeGet false today fc s).2).2).2 =
      RouteResponse.jsonRepos results.flatten := by
  have hf : (routeLoadCache false fc s).isFetching = false := by
    rw [routeLoadCache_isFetching]
    exact h0
  have hreq1 : routeGet false today fc s =
      (RouteDecision.startRun, { routeLoadCache false fc s with isFetching := true }) := by
    unfold routeGet
    simp [hmiss, hf]
  have hhit2 : routeCacheHit false today
      { routeLoadCache false fc s with isFetching := true } = false := by
    simpa [routeCacheHit] using hmiss
  have hreq2 : routeGet false today fc { routeLoadCache false fc s with isFetching := true } =
      (RouteDecision.joinExisting, { routeLoadCache false fc s with isFetching := true }) := by
    unfold routeGet
    rw [routeLoadCache_after_start]
    simp [hhit2]
  have hlen : ¬ results.flatten.length = 0 := fun h => hne (List.length_eq_zero.1 h)
  refine ⟨?_, ?_, ?_, ?_, ?_⟩
  · rw [hreq1]
  · rw [hreq1, hreq2]
  · rw [hreq1, hreq2]
    rfl
  · rw [hreq1, hreq2]
    show routeInitiatorResponse results.flatten = RouteResponse.jsonRepos results.flatten
    unfold routeInitiatorResponse
    rw [if_neg hlen]
  · rw [hreq1, hreq2]
    rfl

/-- Witness for C2 (amended): from the empty idle state with a one-record
category result, one run starts, the second request joins, and both responses
are the same one-record list. -/
theorem single_flight_join_witness :
    (routeGet false 5 none rsIdle).1 = RouteDecision.startRun ∧
    (routeGet false 5 none (routeGet false 5 none rsIdle).2).1 =
      RouteDecision.joinExisting ∧
    ([(routeGet false 5 none rsIdle).1,
        (routeGet false 5 none (routeGet false 5 none rsIdle).2).1].countP
      (fun d => d == RouteDecision.startRun)) = 1 ∧
    routeInitiatorResponse
        (routeRunChain [[rA]] SaveOutcome.saveOk 5
          (routeGet false 5 none (routeGet false 5 none rsIdle).2).2).1 =
      RouteResponse.jsonRepos [[rA]].flatten ∧
    routeJoinerResponse
        (routeRunChain [[rA]] SaveOutcome.saveOk 5
          (routeGet false 5 none (routeGet false 5 none rsIdle).2).2).2 =
      RouteResponse.jsonRepos [[rA]].flatten :=
  single_flight_join rsIdle 5 none [[rA]] rfl (by decide) (by decide)

/-! ## Claim C1 (counterexample and amended form) -/

/-- Membership in the dedup output characterised positionally: `r` is kept
exactly when it sits at the first index of `l` carrying its `repoUrl`. -/
lemma mem_uniqueRepos_iff {l : List Repo} {r : Repo} :
    r ∈ uniqueRepos l ↔
      l[l.findIdx (fun x => x.repoUrl == r.repoUrl)]? = some r := by
  unfold uniqueRepos
  constructor
  · intro h
    rcases List.mem_map.1 h with ⟨p, hmem, hsnd⟩
    rcases List.mem_filter.1 hmem with ⟨henum, hcond⟩
    rcases p with ⟨i, a⟩
    cases hsnd
    have hidx : l.findIdx (fun x => x.repoUrl == a.repoUrl) = i := by
      simpa using hcond
    rw [hidx]
    simpa using List.mk_mem_enum_iff_getElem?.1 henum
  · intro h
    apply List.mem_map.2
    refine ⟨(l.findIdx fun x => x.repoUrl == r.repoUrl, r), ?_, rfl⟩
    apply List.mem_filter.2
    refine ⟨List.mk_mem_enum_iff_getElem?.2 (by simpa using h), by simp⟩

/-- If the element at the first index satisfying `p` is `r`, then `find?`
returns `r`. -/
lemma find?_of_getElem?_findIdx {α : Type} (p : α → Bool) :
    ∀ (l : List α) (r : α), l[l.findIdx p]? = some r → l.find? p = some r := by
  intro l
  induction l with
  | nil =>
    intro r h
    simp at h
  | cons a t ih =>
    intro r h
    by_cases hpa : p a = true
    · rw [List.findIdx_cons] at h
      simp [hpa] at h
      subst h
      exact List.find?_cons_of_pos _ hpa
    · rw [List.findIdx_cons] at h
      simp only [Bool.not_eq_true] at hpa
      simp [hpa] at h
      rw [List.find?_cons_of_neg _ (by simp [hpa])]
      exact ih r h

/-- The position-value pair list of any list is duplicate-free. -/
lemma nodup_enum {α : Type} (l : List α) : l.enum.Nodup :=
  (List.nodup_enum_map_fst l).of_map _

/-- The dedup output never contains the same record twice. -/
lemma nodup_uniqueRepos (l : List Repo) : (uniqueRepos l).Nodup := by
  unfold uniqueRepos
  apply List.Nodup.map_on
  · intro p hp q hq hpq
    rcases List.mem_filter.1 hp with ⟨-, hpc⟩
    rcases List.mem_filter.1 hq with ⟨-, hqc⟩
    rcases p with ⟨i, a⟩
    rcases q with ⟨j, b⟩
    have h1 : l.findIdx (fun x => x.repoUrl == a.repoUrl) = i := by simpa using hpc
    have h2 : l.findIdx (fun x => x.repoUrl == b.repoUrl) = j := by simpa using hqc
    have hab : a = b := hpq
    subst hab
    have hij : i = j := by rw [← h1, ← h2]
    subst hij
    rfl
  · exact (nodup_enum l).filter _

/-- Two dedup-output records with the same `repoUrl` coincide. -/
lemma uniqueRepos_url_inj {l : List Repo} {r1 r2 : Repo}
    (h1 : r1 ∈ uniqueRepos l) (h2 : r2 ∈ uniqueRepos l)
    (hu : r1.repoUrl = r2.repoUrl) : r1 = r2 := by
  rw [mem_uniqueRepos_iff] at h1 h2
  rw [hu] at h1
  exact Option.some.inj (h1.symm.trans h2)

/-- In a duplicate-free list where every element satisfying `p` equals `x`
and `x` is a member satisfying `p`, the filter is exactly `[x]`. -/
lemma nodup_filter_eq_singleton {α : Type} {xs : List α} {p : α → Bool} {x : α}
    (hn : xs.Nodup) (hx : x ∈ xs) (hpx : p x = true)
    (huniq : ∀ y ∈ xs, p y = true → y = x) : xs.filter p = [x] := by
  induction xs with
  | nil => cases hx
  | cons a t ih =>
    rcases List.mem_cons.1 hx with rfl | hxt
    · have ht : t.filter p = [] := by
        refine List.filter_eq_nil_iff.2 (fun y hy hpy => ?_)
        have hyx := huniq y (List.mem_cons_of_mem _ hy) hpy
        subst hyx
        exact absurd hy (List.nodup_cons.1 hn).1
      rw [List.filter_cons_of_pos hpx, ht]
    · have hpa : p a = false := by
        cases hpa : p a with
        | false => rfl
        | true =>
          have haa := huniq a (List.mem_cons_self _ _) hpa
          subst haa
          exact absurd hxt (List.nodup_cons.1 hn).1
      rw [List.filter_cons_of_neg (by simp [hpa])]
      exact ih (List.nodup_cons.1 hn).2 hxt
        (fun y hy hpy => huniq y (List.mem_cons_of_mem _ hy) hpy)

/-- Every URL of the input has a representative in the dedup output, namely
the input's first occurrence of that URL. -/
lemma uniqueRepos_first_occurrence {l : List Repo} {u : String}
    (h : u ∈ l.map (fun r => r.repoUrl)) :
    ∃ r, r ∈ uniqueRepos l ∧ r.repoUrl = u ∧
      l.find? (fun x => x.repoUrl == u) = some r := by
  rcases List.mem_map.1 h with ⟨r0, hr0, rfl⟩
  have hex : l.findIdx (fun x => x.repoUrl == r0.repoUrl) < l.length :=
    List.findIdx_lt_length_of_exists ⟨r0, hr0, by simp⟩
  have hpred : l[l.findIdx (fun x => x.repoUrl == r0.repoUrl)].repoUrl = r0.repoUrl := by
    have hp := @List.findIdx_getElem _ (fun x => x.repoUrl == r0.repoUrl) l hex
    simpa using hp
  refine ⟨l[l.findIdx (fun x => x.repoUrl == r0.repoUrl)], ?_, hpred, ?_⟩
  · rw [mem_uniqueRepos_iff, hpred]
    exact List.getElem?_eq_getElem hex
  · exact find?_of_getElem?_findIdx _ l _ (List.getElem?_eq_getElem hex)

/-- Each URL of the input appears exactly once in the dedup output. -/
lemma countP_uniqueRepos {l : List Repo} {u : String}
    (h : u ∈ l.map (fun r => r.repoUrl)) :
    (uniqueRepos l).countP (fun r => r.repoUrl == u) = 1 := by
  rcases uniqueRepos_first_occurrence h with ⟨r, hr, hru, -⟩
  have hfil : (uniqueRepos l).filter (fun x => x.repoUrl == u) = [r] := by
    refine nodup_filter_eq_singleton (nodup_uniqueRepos l) hr (by simp [hru]) ?_
    intro y hy hpy
    have hyu : y.repoUrl = u := by simpa using hpy
    exact uniqueRepos_url_inj hy hr (hyu.trans hru.symm)
  rw [List.countP_eq_length_filter, hfil]
  rfl

/-- C1 counterexample: the route variant's aggregation keeps duplicates —
with two categories both returning the repository of `rA`, the full run's
merged output carries its `repoUrl` twice, refuting once-per-`sourceUrl` for
the aggregated output at this concrete input. -/
theorem route_merge_keeps_duplicates :
    (routeRunChain [[rA], [rA']] SaveOutcome.saveOk 5 rsIdle).2.cachedRepos.countP
        (fun r => r.repoUrl == "https://github.com/a/a") = 2 := by
  decide

/-- C1 (amended): a completed `server.js` run deduplicates the concatenated
per-category results by `repoUrl`: the cached output carries each distinct
`repoUrl` of the input exactly once, and the record retained for a URL is the
input's first occurrence in aggregation order (per-category results
concatenated in category-list order, as `Promise.all` resolves them).  The
`route.ts` run instead merges by plain concatenation, retaining duplicates
(see the counterexample). -/
theorem runAll_dedup_first (results : List (List Repo)) (u : String)
    (h : u ∈ results.flatten.map (fun r => r.repoUrl)) (now : Timestamp)
    (s : ServerState) :
    ((serverFinishFetch (RunOutcome.completed results) now s).1.cachedRepos.countP
        (fun r => r.repoUrl == u) = 1) ∧
    (∃ r, r ∈ (serverFinishFetch (RunOutcome.completed results) now s).1.cachedRepos ∧
      results.flatten.find? (fun x => x.repoUrl == u) = some r) := by
  have hc : (serverFinishFetch (RunOutcome.completed results) now s).1.cachedRepos =
      uniqueRepos results.flatten := rfl
  rw [hc]
  rcases uniqueRepos_first_occurrence h with ⟨r, hr, -, hfind⟩
  exact ⟨countP_uniqueRepos h, r, hr, hfind⟩

/-- Witness for C1 (amended): a run with a duplicated URL across the two
categories caches it exactly once and retains the first occurrence. -/
theorem runAll_dedup_first_witness :
    ((serverFinishFetch (RunOutcome.completed [[rA], [rB, rA']]) tToday
        sStale).1.cachedRepos.countP
      (fun r => r.repoUrl == "https://github.com/a/a") = 1) ∧
    (∃ r, r ∈ (serverFinishFetch (RunOutcome.completed [[rA], [rB, rA']]) tToday
        sStale).1.cachedRepos ∧
      [[rA], [rB, rA']].flatten.find? (fun x => x.repoUrl == "https://github.com/a/a") =
        some r) :=
  runAll_dedup_first [[rA], [rB, rA']] "https://github.com/a/a" (by decide) tToday sStale

end GithubTrending
